import Mathlib

set_option maxHeartbeats 1000000

/-!
Shallow embedding of `src/memory_server.py` (Companonion memory MCP server).

Modelling conventions:
* Timestamps are `Nat`.  The source stores ISO-8601 strings produced by
  `now_iso()` and compares them as SQLite TEXT; lexicographic order on such
  strings coincides with chronological order, so `Nat` with its usual order is
  a faithful abstraction.  Wherever a timestamp is rendered into text we render
  the `Nat` with `toString`.
* The two SQLite databases become explicit state records (`MemoryDb`,
  `VoidDb`); `AUTOINCREMENT` ids become explicit `next…Id` counters.
* Storage-layer failures (the exceptions a `conn.execute` may raise) are
  modelled by a fault oracle `fail : Nat → Bool`, one index per SQL statement
  in execution order.  A Python function with no `except` clause gets return
  type `Except String _` (the exception propagates); `store_memory`, which has
  `except Exception`, is total and converts the error into its failure dict.
  Uncommitted statements are rolled back when the connection closes, so every
  error path returns the caller-visible state unchanged.
* Python truthiness tests on strings/lists (`if databases:`, `if new_name:`,
  `if row['content']:`, `tags or ["snippet"]`) are modelled exactly: empty
  strings and empty lists are falsy.
-/

-- ============================================================
-- Record store data model (memory.db)
-- ============================================================

structure EntityRow where
  id : Nat
  name : String
  entity_type : String
  database : String
  salience : String
  created_at : Nat
  updated_at : Nat
  deriving DecidableEq

structure ObservationRow where
  id : Nat
  entity_id : Nat
  content : String
  added_at : Nat
  deriving DecidableEq

structure RelationRow where
  id : Nat
  from_entity : String
  relation_type : String
  to_entity : String
  database : String
  created_at : Nat
  deriving DecidableEq

structure MemoryDb where
  entities : List EntityRow
  observations : List ObservationRow
  relations : List RelationRow
  nextEntityId : Nat
  nextObsId : Nat
  deriving DecidableEq

def emptyMemoryDb : MemoryDb := ⟨[], [], [], 1, 1⟩

/-- `SELECT id FROM entities WHERE name = ? AND database = ?` followed by
`fetchone()`: the first row matching the pair. -/
def lookupEntity (db : MemoryDb) (name database : String) : Option EntityRow :=
  db.entities.find? (fun e => e.name == name && e.database == database)

/-- Number of entity rows with the given `(name, database)` identity. -/
def countE (db : MemoryDb) (name database : String) : Nat :=
  (db.entities.filter (fun e => e.name == name && e.database == database)).length

/-- `UPDATE entities SET updated_at = ? WHERE id = ?` applied to one row. -/
def touchEntity (i now : Nat) (e : EntityRow) : EntityRow :=
  if e.id == i then { e with updated_at := now } else e

/-- The entity row inserted by the creating branch of `store_memory`. -/
def newEntityRow (db : MemoryDb) (name entity_type database salience : String)
    (now : Nat) : EntityRow :=
  ⟨db.nextEntityId, name, entity_type, database, salience, now, now⟩

structure StoreResult where
  success : Bool
  action : String
  entity_id : Nat
  error : String
  deriving DecidableEq

def noFail : Nat → Bool := fun _ => false

def storageErr : String := "storage error"

/-- The `try:` block of `store_memory`.  Statement indices for the fault
oracle: 0 = entity SELECT, 1 = first INSERT/UPDATE, 2 = second statement,
3 = `conn.commit()`.  An uncaught statement error is an `Except.error`. -/
def store_memory_run (fail : Nat → Bool) (db : MemoryDb)
    (entity_name observation entity_type database salience : String)
    (now : Nat) : Except String (MemoryDb × StoreResult) :=
  if fail 0 then .error storageErr else
  match lookupEntity db entity_name database with
  | some e =>
      -- INSERT INTO observations; UPDATE entities SET updated_at; commit
      if fail 1 then .error storageErr else
      if fail 2 then .error storageErr else
      if fail 3 then .error storageErr else
      .ok ({ db with
              observations :=
                db.observations ++ [⟨db.nextObsId, e.id, observation, now⟩],
              nextObsId := db.nextObsId + 1,
              entities := db.entities.map (touchEntity e.id now) },
           ⟨true, "updated", e.id, ""⟩)
  | none =>
      -- INSERT INTO entities; INSERT INTO observations; commit
      if fail 1 then .error storageErr else
      if fail 2 then .error storageErr else
      if fail 3 then .error storageErr else
      .ok ({ db with
              entities :=
                db.entities ++ [newEntityRow db entity_name entity_type database salience now],
              observations :=
                db.observations ++ [⟨db.nextObsId, db.nextEntityId, observation, now⟩],
              nextEntityId := db.nextEntityId + 1,
              nextObsId := db.nextObsId + 1 },
           ⟨true, "created", db.nextEntityId, ""⟩)

/-- `store_memory`: the whole function.  Its `except Exception as e:` clause
catches any storage error and returns `{"success": False, "error": str(e)}`;
the connection is closed without commit, so the database is unchanged. -/
def store_memory (fail : Nat → Bool) (db : MemoryDb)
    (entity_name observation entity_type database salience : String)
    (now : Nat) : MemoryDb × StoreResult :=
  match store_memory_run fail db entity_name observation entity_type database salience now with
  | .ok r => r
  | .error e => (db, ⟨false, "", 0, e⟩)

-- ============================================================
-- retrieve_memory
-- ============================================================

structure ObsOut where
  content : String
  added : Nat
  deriving DecidableEq

structure EntityOut where
  name : String
  entity_type : String
  database : String
  salience : String
  created : Nat
  updated : Nat
  observations : List ObsOut
  deriving DecidableEq

structure RetrieveResult where
  success : Bool
  entity : Option EntityOut
  error : String
  deriving DecidableEq

/-- Stable-ish insertion step for descending sort by a `Nat` key
(models `ORDER BY … DESC`). -/
def insertDescBy (key : α → Nat) (x : α) : List α → List α
  | [] => [x]
  | y :: ys => if key y < key x then x :: y :: ys else y :: insertDescBy key x ys

/-- Insertion sort, descending by `key` (models `ORDER BY … DESC`). -/
def sortDescBy (key : α → Nat) : List α → List α
  | [] => []
  | x :: xs => insertDescBy key x (sortDescBy key xs)

/-- `retrieve_memory`.  The function has `try/finally` but no `except`
clause, so a storage error propagates to the caller (`Except.error`).
Statement indices: 0 = entity SELECT, 1 = observations SELECT. -/
def retrieve_memory (fail : Nat → Bool) (db : MemoryDb)
    (entity_name database : String) : Except String RetrieveResult :=
  if fail 0 then .error storageErr else
  match lookupEntity db entity_name database with
  | none =>
      .ok ⟨false, none,
        "Entity \x27" ++ entity_name ++ "\x27 not found in database \x27" ++ database ++ "\x27"⟩
  | some e =>
      if fail 1 then .error storageErr else
      let obs := sortDescBy (·.added_at)
        (db.observations.filter (fun o => o.entity_id == e.id))
      .ok ⟨true,
        some ⟨e.name, e.entity_type, e.database, e.salience, e.created_at, e.updated_at,
          obs.map (fun o => ⟨o.content, o.added_at⟩)⟩, ""⟩

-- ============================================================
-- search_memories
-- ============================================================

/-- Case-insensitive substring test: models SQLite
`column LIKE '%query%'` (SQLite LIKE is case-insensitive for ASCII, matching
`Char.toLower`'s ASCII-only folding).  `%`/`_` wildcards inside the query
itself are not modelled; no claim depends on wildcard queries. -/
def likeContains (hay pat : String) : Bool :=
  let h := hay.data.map Char.toLower
  let p := pat.data.map Char.toLower
  (List.range (h.length + 1)).any (fun i => p.isPrefixOf (h.drop i))

/-- Python truthiness of the `databases` argument: `if databases:` is false
for both `None` and `[]`, in which case no database filter is applied. -/
def dbFilterPred (databases : Option (List String)) (d : String) : Bool :=
  match databases with
  | some l => if l.isEmpty then true else l.contains d
  | none => true

/-- `FROM entities e LEFT JOIN observations o ON e.id = o.entity_id`,
projected onto the selected columns `e.*, o.content, o.added_at`
(`none` for an entity with no observations). -/
def joinEntObs (db : MemoryDb) : List (EntityRow × Option (String × Nat)) :=
  (db.entities.map (fun e =>
    let os := db.observations.filter (fun o => o.entity_id == e.id)
    match os with
    | [] => [(e, none)]
    | _ => os.map (fun o => (e, some (o.content, o.added_at))))).flatten

/-- First-occurrence deduplication, fuel-bounded so it reduces in the kernel
(the fuel `l.length` always suffices since each step strictly shrinks the
list). -/
def dedupFirstAux [DecidableEq α] : Nat → List α → List α
  | 0, _ => []
  | _, [] => []
  | Nat.succ fuel, x :: xs => x :: dedupFirstAux fuel (xs.filter (fun y => y ≠ x))

/-- First-occurrence deduplication: models SQL `DISTINCT` over the selected
columns. -/
def dedupFirst [DecidableEq α] (l : List α) : List α :=
  dedupFirstAux l.length l

/-- The row set fetched by the `search_memories` query: WHERE filter
(`e.name LIKE ? OR o.content LIKE ?`, with SQL three-valued logic making a
NULL `o.content` fail the second disjunct), optional `e.database IN (…)`
filter, DISTINCT, `ORDER BY e.updated_at DESC`, `LIMIT ?`. -/
def searchRows (db : MemoryDb) (query : String) (databases : Option (List String))
    (limit : Nat) : List (EntityRow × Option (String × Nat)) :=
  let matched := (joinEntObs db).filter (fun r =>
    (likeContains r.1.name query ||
      (match r.2 with
       | some co => likeContains co.1 query
       | none => false))
    && dbFilterPred databases r.1.database)
  (sortDescBy (fun r => r.1.updated_at) (dedupFirst matched)).take limit

structure ResultEntity where
  name : String
  entity_type : String
  database : String
  salience : String
  observations : List (String × Nat)
  deriving DecidableEq

/-- First half of the Python grouping loop body: create the
`entities_map[entity_id]` slot on first sight (insertion order preserved,
Python dicts are ordered).  The accumulator pairs each slot with the entity
row whose id keys it. -/
def groupInsert (acc : List (EntityRow × ResultEntity))
    (row : EntityRow × Option (String × Nat)) : List (EntityRow × ResultEntity) :=
  if acc.any (fun p => p.1.id == row.1.id) then acc
  else acc ++ [(row.1, ⟨row.1.name, row.1.entity_type, row.1.database, row.1.salience, []⟩)]

/-- Second half of the loop body: append the observation to the entity's
slot when `row['content']` is truthy (non-NULL and non-empty). -/
def groupAttach (acc : List (EntityRow × ResultEntity))
    (row : EntityRow × Option (String × Nat)) : List (EntityRow × ResultEntity) :=
  match row.2 with
  | some co =>
      if co.1 ≠ "" then
        acc.map (fun p =>
          if p.1.id == row.1.id then
            (p.1, { p.2 with observations := p.2.observations ++ [co] })
          else p)
      else acc
  | none => acc

/-- One iteration of the Python grouping loop over fetched rows. -/
def groupStep (acc : List (EntityRow × ResultEntity))
    (row : EntityRow × Option (String × Nat)) : List (EntityRow × ResultEntity) :=
  groupAttach (groupInsert acc row) row

/-- The `entities_map` built by `search_memories`, paired with the entity row
whose id keys each slot (bookkeeping for stating ordering/uniqueness). -/
def searchGroups (db : MemoryDb) (query : String) (databases : Option (List String))
    (limit : Nat) : List (EntityRow × ResultEntity) :=
  (searchRows db query databases limit).foldl groupStep []

structure SearchResult where
  success : Bool
  query : String
  count : Nat
  results : List ResultEntity
  deriving DecidableEq

/-- `search_memories`.  (`try/finally` with no `except`: the non-faulting
execution is modelled; cf. `retrieve_memory` for fault propagation.) -/
def search_memories (db : MemoryDb) (query : String)
    (databases : Option (List String)) (limit : Nat) : SearchResult :=
  let g := searchGroups db query databases limit
  ⟨true, query, g.length, g.map (·.2)⟩

/-- An entity matches the search WHERE clause (by name or by one of its
observations), under the optional database filter.  Used to state how many
distinct entities match a query. -/
def entityMatches (db : MemoryDb) (query : String)
    (databases : Option (List String)) (e : EntityRow) : Bool :=
  (likeContains e.name query ||
    db.observations.any (fun o => o.entity_id == e.id && likeContains o.content query))
  && dbFilterPred databases e.database

/-- Number of distinct entities matching the search condition. -/
def matchingEntityCount (db : MemoryDb) (query : String)
    (databases : Option (List String)) : Nat :=
  (db.entities.filter (entityMatches db query databases)).length

/-- Concrete store for the `search_memories` limit counterexample: two
entities, each with two observations containing the query text. -/
def cexSearchDb : MemoryDb :=
  { entities :=
      [⟨1, "apple", "t", "default", "active", 0, 20⟩,
       ⟨2, "ananas", "t", "default", "active", 0, 10⟩],
    observations :=
      [⟨1, 1, "q one", 1⟩, ⟨2, 1, "q two", 2⟩,
       ⟨3, 2, "q three", 3⟩, ⟨4, 2, "q four", 4⟩],
    relations := [],
    nextEntityId := 3,
    nextObsId := 5 }

-- ============================================================
-- update_entity
-- ============================================================

structure UpdateResult where
  success : Bool
  message : String
  deriving DecidableEq

/-- Python truthiness of an optional string argument (`if new_name:`):
`None` and `""` are both falsy, i.e. the field is not provided. -/
def providedStr : Option String → Bool
  | some s => !s.isEmpty
  | none => false

/-- The dynamic `UPDATE entities SET …` applied to the target row: each
provided field is set, `updated_at` is always set to now; `id`, `database`
and `created_at` are untouched. -/
def applyEntityUpdate (new_name new_type new_salience : Option String)
    (now : Nat) (e : EntityRow) : EntityRow :=
  { e with
    name := if providedStr new_name then new_name.getD e.name else e.name,
    entity_type := if providedStr new_type then new_type.getD e.entity_type else e.entity_type,
    salience := if providedStr new_salience then new_salience.getD e.salience else e.salience,
    updated_at := now }

/-- `update_entity`.  `try/finally` with no `except`: an error raised by the
UPDATE — in particular a `UNIQUE(name, database)` violation when a rename
collides with another row — propagates (`Except.error`). -/
def update_entity (db : MemoryDb) (entity_name database : String)
    (new_name new_type new_salience : Option String)
    (now : Nat) : Except String (MemoryDb × UpdateResult) :=
  match lookupEntity db entity_name database with
  | none => .ok (db, ⟨false, "Entity \x27" ++ entity_name ++ "\x27 not found"⟩)
  | some e =>
      if !(providedStr new_name || providedStr new_type || providedStr new_salience) then
        .ok (db, ⟨false, "No updates specified"⟩)
      else
        let updated := applyEntityUpdate new_name new_type new_salience now e
        if db.entities.any (fun x =>
            x.id != e.id && x.name == updated.name && x.database == updated.database) then
          .error "UNIQUE constraint failed: entities.name, entities.database"
        else
          .ok ({ db with
                  entities := db.entities.map (fun x =>
                    if x.id == e.id then applyEntityUpdate new_name new_type new_salience now x
                    else x) },
               ⟨true, "Entity \x27" ++ entity_name ++ "\x27 updated successfully"⟩)

-- ============================================================
-- get_context_block
-- ============================================================

/-- Python `result[:k]` where `k` may be negative (a negative stop counts
from the end, clamped at 0). -/
def pySlice (s : String) (k : Int) : String :=
  let n : Int := s.length
  let stop : Int := if k < 0 then max (n + k) 0 else min k n
  String.mk (s.data.take stop.toNat)

/-- The final length-enforcement step of `get_context_block`:
`if len(result) > max_length: result = result[:max_length - 50] +
"\n...[truncated]\n[END MEMORY CONTEXT]\n\n"`. -/
def lengthClamp (max_length : Int) (result : String) : String :=
  if (result.length : Int) > max_length then
    pySlice result (max_length - 50) ++ "\n...[truncated]\n[END MEMORY CONTEXT]\n\n"
  else
    result

/-- Rows of the Core Knowledge query: `e.*, o.content` over the LEFT JOIN,
`WHERE e.salience = 'foundational'` plus the optional database filter,
`ORDER BY e.updated_at DESC` (no LIMIT). -/
def ctxFoundRows (db : MemoryDb) (databases : Option (List String)) :
    List (EntityRow × Option String) :=
  sortDescBy (fun r => r.1.updated_at)
    (((joinEntObs db).map (fun r => (r.1, r.2.map (·.1)))).filter
      (fun r => r.1.salience == "foundational" && dbFilterPred databases r.1.database))

structure CtxEntry where
  name : String
  entity_type : String
  obs : List String
  deriving DecidableEq

/-- One iteration of the `entity_obs` grouping loop (keyed by entity *name*,
first-seen order; `if row['content']:` skips NULL and empty contents). -/
def ctxGroupStep (acc : List CtxEntry) (row : EntityRow × Option String) :
    List CtxEntry :=
  let acc1 :=
    if acc.any (fun p => p.name == row.1.name) then acc
    else acc ++ [⟨row.1.name, row.1.entity_type, []⟩]
  match row.2 with
  | some c =>
      if c ≠ "" then
        acc1.map (fun p =>
          if p.name == row.1.name then { p with obs := p.obs ++ [c] } else p)
      else acc1
  | none => acc1

def ctxGroups (rows : List (EntityRow × Option String)) : List CtxEntry :=
  rows.foldl ctxGroupStep []

/-- `f"{name} ({data['type']}): {obs_text}"` with up to 3 observations. -/
def renderCtxEntry (g : CtxEntry) : String :=
  g.name ++ " (" ++ g.entity_type ++ "): " ++ String.intercalate "; " (g.obs.take 3)

/-- Rows of the Recent Activity query (`(name, content, added_at)`): inner
join of observations with entities, `WHERE o.added_at > cutoff` plus the
optional database filter, `ORDER BY o.added_at DESC LIMIT 10`. -/
def ctxRecentRows (db : MemoryDb) (databases : Option (List String))
    (cutoff : Nat) : List (String × String × Nat) :=
  (((sortDescBy (fun r => r.2.added_at)
    ((db.observations.map (fun o =>
        (db.entities.filter (fun e => e.id == o.entity_id)).map (fun e => (e, o)))).flatten.filter
      (fun r => cutoff < r.2.added_at && dbFilterPred databases r.1.database))).take 10).map
    (fun r => (r.1.name, r.2.content, r.2.added_at)))

/-- `get_context_block`.  The current time is an explicit `now : Nat`;
`cutoff` models `datetime.now().timestamp() - include_recent_hours*3600`
(ISO rendering of timestamps abstracted to `toString`). -/
def get_context_block (max_length : Int) (include_recent_hours : Nat)
    (databases : Option (List String)) (db : MemoryDb) (now : Nat) : String :=
  let header := ["[COMPANION MEMORY CONTEXT]", "Last updated: " ++ toString now, ""]
  let found := ctxFoundRows db databases
  let corePart : List String :=
    if found.isEmpty then []
    else ["## Core Knowledge"] ++ ((ctxGroups found).take 10).map renderCtxEntry ++ [""]
  let cutoff := now - include_recent_hours * 3600
  let recent := ctxRecentRows db databases cutoff
  let recentPart : List String :=
    if recent.isEmpty then []
    else ["## Recent Activity"] ++ recent.map (fun r => r.1 ++ ": " ++ r.2.1) ++ [""]
  let result := String.intercalate "\n" (header ++ corePart ++ recentPart ++ ["[END MEMORY CONTEXT]", ""])
  lengthClamp max_length result

-- ============================================================
-- The Void (journal) data model and its JSON text forms
-- ============================================================

/-- JSON string escaping as performed by `json.dumps` on `"` and `\`
(control characters, which `json.dumps` would emit as `\uXXXX`, are kept
literal; no claim concerns them). -/
def escChar (c : Char) : List Char :=
  if c = '"' || c = '\\' then ['\\', c] else [c]

def escChars : List Char → List Char
  | [] => []
  | c :: cs => escChar c ++ escChars cs

/-- `json.dumps` of a string, as a character list. -/
def jstrChars (s : String) : List Char :=
  '"' :: (escChars s.data ++ ['"'])

/-- Characters of the comma-separated pair list inside a dumped object,
using the `json.dumps` default separators `", "` and `": "`. -/
def encPairsChars : List (String × String) → List Char
  | [] => []
  | [p] => jstrChars p.1 ++ ':' :: ' ' :: jstrChars p.2
  | p :: ps => (jstrChars p.1 ++ ':' :: ' ' :: jstrChars p.2) ++ ',' :: ' ' :: encPairsChars ps

/-- `json.dumps(artifacts)` for a string-valued mapping (modelled as an
association list in key order). -/
def dumpsObj (ps : List (String × String)) : String :=
  String.mk ('\x7b' :: (encPairsChars ps ++ ['\x7d']))

def encArrChars : List String → List Char
  | [] => []
  | [s] => jstrChars s
  | s :: ss => jstrChars s ++ ',' :: ' ' :: encArrChars ss

/-- `json.dumps(tags)` for a list of strings. -/
def dumpsArr (ts : List String) : String :=
  String.mk ('[' :: (encArrChars ts ++ [']']))

/-- JSON string body reader: consumes up to the closing quote, undoing the
`\"` and `\\` escapes, and returns the decoded characters plus the rest. -/
def parseStrBody : List Char → Option (List Char × List Char)
  | [] => none
  | c :: rest =>
      if c = '\\' then
        match rest with
        | [] => none
        | d :: rest2 => (parseStrBody rest2).map (fun p => (d :: p.1, p.2))
      else if c = '"' then some ([], rest)
      else (parseStrBody rest).map (fun p => (c :: p.1, p.2))

/-- Reads one JSON string literal, returning it and the remaining input. -/
def parseStr (l : List Char) : Option (String × List Char) :=
  match l with
  | c :: rest =>
      if c = '"' then (parseStrBody rest).map (fun p => (String.mk p.1, p.2))
      else none
  | [] => none

/-- Reads one `"key": "value"` pair (with the `": "` separator emitted by
`json.dumps`). -/
def parsePair (l : List Char) : Option ((String × String) × List Char) :=
  match parseStr l with
  | some (k, rest) =>
      match rest with
      | ':' :: ' ' :: rest2 =>
          match parseStr rest2 with
          | some (v, rest3) => some ((k, v), rest3)
          | none => none
      | _ => none
  | none => none

/-- Reads the `", "`-separated pairs of a non-empty object up to the final
`}` (fuel-bounded recursion). -/
def parsePairsAux : Nat → List Char → Option (List (String × String))
  | 0, _ => none
  | Nat.succ fuel, l =>
      match parsePair l with
      | some (p, rest) =>
          match rest with
          | ['\x7d'] => some [p]
          | ',' :: ' ' :: rest2 => (parsePairsAux fuel rest2).map (fun ps => p :: ps)
          | _ => none
      | none => none

/-- `json.loads` on the canonical object text forms produced by `dumpsObj`
(and on the `"{}"` default). -/
def loadsObj (s : String) : Option (List (String × String)) :=
  match s.data with
  | '\x7b' :: body =>
      if body = ['\x7d'] then some []
      else parsePairsAux s.length body
  | _ => none

def parseArrAux : Nat → List Char → Option (List String)
  | 0, _ => none
  | Nat.succ fuel, l =>
      match parseStr l with
      | some (s, rest) =>
          match rest with
          | [']'] => some [s]
          | ',' :: ' ' :: rest2 => (parseArrAux fuel rest2).map (fun ss => s :: ss)
          | _ => none
      | none => none

/-- `json.loads` on the canonical array text forms produced by `dumpsArr`
(and on the `"[]"` default). -/
def loadsArr (s : String) : Option (List String) :=
  match s.data with
  | '[' :: body =>
      if body = [']'] then some []
      else parseArrAux s.length body
  | _ => none

structure EntryRow where
  id : Nat
  created_at : Nat
  session_id : Option String
  thread_id : Option String
  title : String
  summary : String
  decisions : Option String
  open_loops : Option String
  artifacts_json : String
  tags_json : String
  importance : Int
  deriving DecidableEq

/-- One row of the `entries_fts` index (external-content FTS5 table,
`rowid = entries.id`). -/
structure FtsRow where
  rowid : Nat
  title : String
  summary : String
  decisions : String
  open_loops : String
  artifacts_text : String
  tags_text : String
  deriving DecidableEq

structure VoidDb where
  entries : List EntryRow
  fts : List FtsRow
  nextId : Nat
  deriving DecidableEq

/-- Fresh Void database after `init_void_database` (AUTOINCREMENT starts
at 1). -/
def initVoidDb : VoidDb := ⟨[], [], 1⟩

structure WriteResult where
  ok : Bool
  id : Nat
  deriving DecidableEq

/-- `void_write_entry`: serializes artifacts/tags (`artifacts or {}`,
`tags or []`), inserts the entry row, and — in the same commit — the
`entries_ai` AFTER INSERT trigger adds the matching `entries_fts` row
(`COALESCE(…, '')` on the nullable columns). -/
def void_write_entry (db : VoidDb) (title summary : String)
    (decisions open_loops : Option String)
    (artifacts : Option (List (String × String))) (tags : Option (List String))
    (importance : Int) (session_id thread_id : Option String)
    (now : Nat) : VoidDb × WriteResult :=
  let artifacts_json := dumpsObj (artifacts.getD [])
  let tags_json := dumpsArr (tags.getD [])
  let e : EntryRow :=
    ⟨db.nextId, now, session_id, thread_id, title, summary, decisions, open_loops,
      artifacts_json, tags_json, importance⟩
  let f : FtsRow :=
    ⟨db.nextId, title, summary, decisions.getD "", open_loops.getD "",
      artifacts_json, tags_json⟩
  ({ entries := db.entries ++ [e], fts := db.fts ++ [f], nextId := db.nextId + 1 },
   ⟨true, db.nextId⟩)

/-- `void_append_snippet` exactly as the source writes it: delegates to
`void_write_entry` with `title="Snippet"`, `summary=text`,
`artifacts={"snippet": text}` and `tags or ["snippet"]` (Python truthiness:
`None` and `[]` both fall back to `["snippet"]`). -/
def void_append_snippet (db : VoidDb) (text : String) (tags : Option (List String))
    (session_id thread_id : Option String) (importance : Int)
    (now : Nat) : VoidDb × WriteResult :=
  void_write_entry db "Snippet" text (some "") (some "")
    (some [("snippet", text)])
    (some (match tags with
           | some ts => if ts.isEmpty then ["snippet"] else ts
           | none => ["snippet"]))
    importance session_id thread_id now

/-- Modelled from the claim text (C10), word for word: the entry
`void_append_snippet` is claimed to be equivalent to, with
`tags = tags if tags is non-empty else ["snippet"]`. -/
def voidAppendSnippetSpec (db : VoidDb) (text : String) (tags : Option (List String))
    (session_id thread_id : Option String) (importance : Int)
    (now : Nat) : VoidDb × WriteResult :=
  void_write_entry db "Snippet" text (some "") (some "")
    (some [("snippet", text)])
    (some (match tags with
           | some ts => if ts ≠ [] then ts else ["snippet"]
           | none => ["snippet"]))
    importance session_id thread_id now

/-- The deserialized entry returned by `void_get_entry`. -/
structure VoidEntry where
  id : Nat
  created_at : Nat
  session_id : Option String
  thread_id : Option String
  title : String
  summary : String
  decisions : Option String
  open_loops : Option String
  artifacts : List (String × String)
  tags : List String
  importance : Int
  deriving DecidableEq

inductive GetResult where
  | found (e : VoidEntry)
  | notFound
  deriving DecidableEq

/-- `void_get_entry`: fetches the row by id (`not_found` when absent) and
deserializes `artifacts_json`/`tags_json` with the `or "{}"` / `or "[]"`
fallbacks for an empty column; a `json.loads` failure would propagate
(`Except.error`, no handler in the source). -/
def void_get_entry (db : VoidDb) (entry_id : Nat) : Except String GetResult :=
  match db.entries.find? (fun e => e.id == entry_id) with
  | none => .ok .notFound
  | some row =>
      let aj := if row.artifacts_json = "" then "\x7b\x7d" else row.artifacts_json
      let tj := if row.tags_json = "" then "[]" else row.tags_json
      match loadsObj aj, loadsArr tj with
      | some a, some t =>
          .ok (.found ⟨row.id, row.created_at, row.session_id, row.thread_id,
            row.title, row.summary, row.decisions, row.open_loops, a, t, row.importance⟩)
      | _, _ => .error "invalid JSON in stored entry"

/-- The journal's state-changing operations (the core exposes no update or
delete of entries). -/
inductive JournalOp where
  | write (title summary : String) (decisions open_loops : Option String)
      (artifacts : Option (List (String × String))) (tags : Option (List String))
      (importance : Int) (session_id thread_id : Option String) (now : Nat)
  | snippet (text : String) (tags : Option (List String))
      (session_id thread_id : Option String) (importance : Int) (now : Nat)

def applyOp (db : VoidDb) : JournalOp → VoidDb
  | .write t s d o a tg i sid tid now => (void_write_entry db t s d o a tg i sid tid now).1
  | .snippet tx tg sid tid i now => (void_append_snippet db tx tg sid tid i now).1

def applyOps (db : VoidDb) (ops : List JournalOp) : VoidDb :=
  ops.foldl applyOp db

/-- C5's invariant: the FTS projection holds exactly one index row per
existing entry id, and no index row without a backing entry. -/
def ftsConsistent (db : VoidDb) : Prop :=
  (∀ e ∈ db.entries, (db.fts.filter (fun f => f.rowid == e.id)).length = 1)
  ∧ (∀ f ∈ db.fts, ∃ e, e ∈ db.entries ∧ e.id = f.rowid)

/-- Strengthened induction invariant: consistency plus the id bounds
maintained by the AUTOINCREMENT counter. -/
def ftsInv (db : VoidDb) : Prop :=
  (∀ e ∈ db.entries, e.id < db.nextId)
  ∧ (∀ f ∈ db.fts, f.rowid < db.nextId)
  ∧ ftsConsistent db

-- ============================================================
-- Theorems
-- ============================================================

theorem lookupEntity_eq_none_iff (db : MemoryDb) (nm ns : String) :
    lookupEntity db nm ns = none ↔ countE db nm ns = 0 := by
  simp [lookupEntity, countE, List.find?_eq_none, List.length_eq_zero,
    List.filter_eq_nil_iff]

theorem entPred_touch (nm ns : String) (i now : Nat) (e : EntityRow) :
    (((touchEntity i now e).name == nm) && ((touchEntity i now e).database == ns))
      = ((e.name == nm) && (e.database == ns)) := by
  unfold touchEntity; split <;> rfl

theorem countE_map_touch (l : List EntityRow) (nm ns : String) (i now : Nat) :
    ((l.map (touchEntity i now)).filter (fun e => e.name == nm && e.database == ns)).length
      = (l.filter (fun e => e.name == nm && e.database == ns)).length := by
  induction l with
  | nil => rfl
  | cons a t ih =>
      simp only [List.map_cons, List.filter_cons, entPred_touch]
      split <;> simp [ih]

/-- C4: repeated `store_memory` calls on the same `(name, database)` pair
keep its entity row unique: from a store with no such entity the call
returns action `"created"`, leaves exactly one such row, and adds exactly
one observation; from a store with exactly one such row every call returns
action `"updated"`, still leaves exactly one row, and adds exactly one
observation — so no second entity row is ever created. -/
theorem store_memory_upsert_unique (db : MemoryDb)
    (nm ob et ns sal : String) (now : Nat) :
    (countE db nm ns = 0 →
        (store_memory noFail db nm ob et ns sal now).2.action = "created"
      ∧ countE (store_memory noFail db nm ob et ns sal now).1 nm ns = 1
      ∧ (store_memory noFail db nm ob et ns sal now).1.observations.length
          = db.observations.length + 1)
  ∧ (countE db nm ns = 1 →
        (store_memory noFail db nm ob et ns sal now).2.action = "updated"
      ∧ countE (store_memory noFail db nm ob et ns sal now).1 nm ns = 1
      ∧ (store_memory noFail db nm ob et ns sal now).1.observations.length
          = db.observations.length + 1) := by
  constructor
  · intro h0
    have hl : lookupEntity db nm ns = none := (lookupEntity_eq_none_iff db nm ns).2 h0
    have h0a : (db.entities.filter (fun e => e.name == nm && e.database == ns)).length = 0 := h0
    refine ⟨?_, ?_, ?_⟩
    · simp [store_memory, store_memory_run, noFail, hl]
    · simp [store_memory, store_memory_run, noFail, hl, countE, List.filter_append,
        newEntityRow, h0a]
    · simp [store_memory, store_memory_run, noFail, hl]
  · intro h1
    have hne : lookupEntity db nm ns ≠ none := by
      intro hc
      rw [(lookupEntity_eq_none_iff db nm ns).1 hc] at h1
      exact absurd h1 (by decide)
    obtain ⟨e, he⟩ := Option.ne_none_iff_exists'.1 hne
    have h1a : (db.entities.filter (fun e => e.name == nm && e.database == ns)).length = 1 := h1
    refine ⟨?_, ?_, ?_⟩
    · simp [store_memory, store_memory_run, noFail, he]
    · simp [store_memory, store_memory_run, noFail, he, countE, countE_map_touch, h1a]
    · simp [store_memory, store_memory_run, noFail, he]

theorem store_memory_upsert_unique_witness :
    ((store_memory noFail emptyMemoryDb "Lincoln" "walks" "person" "default" "active" 3).2.action = "created"
      ∧ countE (store_memory noFail emptyMemoryDb "Lincoln" "walks" "person" "default" "active" 3).1 "Lincoln" "default" = 1
      ∧ (store_memory noFail emptyMemoryDb "Lincoln" "walks" "person" "default" "active" 3).1.observations.length
          = emptyMemoryDb.observations.length + 1)
  ∧ ((store_memory noFail cexSearchDb "apple" "more" "t" "default" "active" 30).2.action = "updated"
      ∧ countE (store_memory noFail cexSearchDb "apple" "more" "t" "default" "active" 30).1 "apple" "default" = 1
      ∧ (store_memory noFail cexSearchDb "apple" "more" "t" "default" "active" 30).1.observations.length
          = cexSearchDb.observations.length + 1) :=
  ⟨(store_memory_upsert_unique emptyMemoryDb "Lincoln" "walks" "person" "default" "active" 3).1 (by decide),
   (store_memory_upsert_unique cexSearchDb "apple" "more" "t" "default" "active" 30).2 (by decide)⟩

/-- C8: on the updated path, `store_memory` appends exactly one observation
and changes only `updated_at` on the matched entity row: the row reappears
with name, entity_type, database, salience and created_at unchanged (the
call's entity_type/salience arguments are ignored), every other entity row
is untouched, and no entity row is added or removed. -/
theorem store_memory_update_frame (db : MemoryDb) (nm ob et ns sal : String)
    (now : Nat) (e : EntityRow) (he : lookupEntity db nm ns = some e) :
    (store_memory noFail db nm ob et ns sal now).2.action = "updated"
  ∧ (store_memory noFail db nm ob et ns sal now).1.observations
      = db.observations ++ [⟨db.nextObsId, e.id, ob, now⟩]
  ∧ (store_memory noFail db nm ob et ns sal now).1.relations = db.relations
  ∧ (store_memory noFail db nm ob et ns sal now).1.entities.length = db.entities.length
  ∧ (store_memory noFail db nm ob et ns sal now).1.nextEntityId = db.nextEntityId
  ∧ (∀ x ∈ db.entities, x.id ≠ e.id → x ∈ (store_memory noFail db nm ob et ns sal now).1.entities)
  ∧ { e with updated_at := now } ∈ (store_memory noFail db nm ob et ns sal now).1.entities := by
  have hmem : e ∈ db.entities := List.mem_of_find?_eq_some he
  have hred : (store_memory noFail db nm ob et ns sal now).1.entities
      = db.entities.map (touchEntity e.id now) := by
    simp [store_memory, store_memory_run, noFail, he]
  refine ⟨?_, ?_, ?_, ?_, ?_, ?_, ?_⟩
  · simp [store_memory, store_memory_run, noFail, he]
  · simp [store_memory, store_memory_run, noFail, he]
  · simp [store_memory, store_memory_run, noFail, he]
  · rw [hred]; exact List.length_map _ _
  · simp [store_memory, store_memory_run, noFail, he]
  · intro x hx hne
    rw [hred]
    exact List.mem_map.2 ⟨x, hx, by simp [touchEntity, hne]⟩
  · rw [hred]
    exact List.mem_map.2 ⟨e, hmem, by simp [touchEntity]⟩

theorem store_memory_update_frame_witness :
    (store_memory noFail cexSearchDb "apple" "crisp" "other" "default" "archive" 99).2.action = "updated"
  ∧ (store_memory noFail cexSearchDb "apple" "crisp" "other" "default" "archive" 99).1.observations
      = cexSearchDb.observations ++ [⟨5, 1, "crisp", 99⟩]
  ∧ ({ (⟨1, "apple", "t", "default", "active", 0, 20⟩ : EntityRow) with updated_at := 99 }
      ∈ (store_memory noFail cexSearchDb "apple" "crisp" "other" "default" "archive" 99).1.entities) :=
  have h := store_memory_update_frame cexSearchDb "apple" "crisp" "other" "default" "archive" 99
    ⟨1, "apple", "t", "default", "active", 0, 20⟩ (by rfl)
  ⟨h.1, h.2.1, h.2.2.2.2.2.2⟩

/-- C6: the creating path of `store_memory` commits as one atomic unit: a
storage failure at any statement (entity INSERT, observation INSERT, or
commit) leaves the store exactly as it was — no entity row with zero
observations survives — and on success the new entity row and its first
observation row appear together. -/
theorem store_memory_create_atomic (fail : Nat → Bool) (db : MemoryDb)
    (nm ob et ns sal : String) (now : Nat)
    (hnew : lookupEntity db nm ns = none) :
    ((store_memory fail db nm ob et ns sal now).2.success = false →
        (store_memory fail db nm ob et ns sal now).1 = db)
  ∧ ((store_memory fail db nm ob et ns sal now).2.success = true →
        (store_memory fail db nm ob et ns sal now).1.entities
            = db.entities ++ [newEntityRow db nm et ns sal now]
      ∧ (store_memory fail db nm ob et ns sal now).1.observations
            = db.observations ++ [⟨db.nextObsId, db.nextEntityId, ob, now⟩]) := by
  by_cases h0 : fail 0 <;> by_cases h1 : fail 1 <;> by_cases h2 : fail 2 <;>
    by_cases h3 : fail 3 <;>
    simp [store_memory, store_memory_run, hnew, h0, h1, h2, h3]

theorem store_memory_create_atomic_witness :
    (store_memory (fun n => n == 2) emptyMemoryDb "L" "walks" "person" "default" "active" 3).2.success = false
  ∧ (store_memory (fun n => n == 2) emptyMemoryDb "L" "walks" "person" "default" "active" 3).1 = emptyMemoryDb :=
  ⟨by decide,
   (store_memory_create_atomic (fun n => n == 2) emptyMemoryDb "L" "walks" "person" "default"
     "active" 3 (by rfl)).1 (by decide)⟩

/-- C2 (amended): only `store_memory` converts storage-layer exceptions into
a structured failure result — whenever its body raises, the caller receives
`{"success": False, "error": …}` and the store is unchanged; the other
operations (`retrieve_memory`, `search_memories`, `list_entities`,
`update_entity`, `get_context_block`, the journal operations) have no
`except` clause and propagate storage exceptions (see the counterexample on
`retrieve_memory`). -/
theorem store_memory_catches_storage_errors (fail : Nat → Bool) (db : MemoryDb)
    (nm ob et ns sal : String) (now : Nat) (err : String)
    (herr : store_memory_run fail db nm ob et ns sal now = .error err) :
    store_memory fail db nm ob et ns sal now = (db, ⟨false, "", 0, err⟩) := by
  simp [store_memory, herr]

theorem store_memory_catches_storage_errors_witness :
    store_memory_run (fun _ => true) emptyMemoryDb "A" "x" "t" "default" "active" 1 = .error storageErr
  ∧ store_memory (fun _ => true) emptyMemoryDb "A" "x" "t" "default" "active" 1
      = (emptyMemoryDb, ⟨false, "", 0, storageErr⟩) :=
  ⟨by rfl,
   store_memory_catches_storage_errors (fun _ => true) emptyMemoryDb "A" "x" "t" "default"
     "active" 1 storageErr (by rfl)⟩

/-- C2 counterexample: `retrieve_memory` has no exception handler, so a
storage-layer exception raised by its first SELECT escapes the operation's
public contract instead of becoming a structured failure result. -/
theorem retrieve_memory_propagates_cex :
    retrieve_memory (fun _ => true) emptyMemoryDb "A" "default" = .error storageErr := rfl

/-- C7: `update_entity` returns a not-found failure without modifying the
store when the entity is absent; with an empty set of provided fields (all
three optional arguments missing or empty, per Python truthiness) it returns
the "No updates specified" validation failure without modifying the store;
and on every successful update the matched row reappears with exactly the
provided fields changed and `updated_at` set to now, leaving `created_at`,
`database`, the unprovided fields, every other entity row, and the
observation/relation tables untouched. -/
theorem update_entity_contract (db : MemoryDb) (nm ns : String)
    (nn nt nsal : Option String) (now : Nat) :
    (lookupEntity db nm ns = none →
        update_entity db nm ns nn nt nsal now
          = .ok (db, ⟨false, "Entity \x27" ++ nm ++ "\x27 not found"⟩))
  ∧ (lookupEntity db nm ns ≠ none →
      providedStr nn = false → providedStr nt = false → providedStr nsal = false →
        update_entity db nm ns nn nt nsal now = .ok (db, ⟨false, "No updates specified"⟩))
  ∧ (∀ e db2 r, lookupEntity db nm ns = some e →
      update_entity db nm ns nn nt nsal now = .ok (db2, r) → r.success = true →
        db2.observations = db.observations
      ∧ db2.relations = db.relations
      ∧ db2.entities.length = db.entities.length
      ∧ (∀ x ∈ db.entities, x.id ≠ e.id → x ∈ db2.entities)
      ∧ applyEntityUpdate nn nt nsal now e ∈ db2.entities
      ∧ (applyEntityUpdate nn nt nsal now e).updated_at = now
      ∧ (applyEntityUpdate nn nt nsal now e).created_at = e.created_at
      ∧ (applyEntityUpdate nn nt nsal now e).database = e.database
      ∧ (providedStr nn = false → (applyEntityUpdate nn nt nsal now e).name = e.name)
      ∧ (providedStr nt = false → (applyEntityUpdate nn nt nsal now e).entity_type = e.entity_type)
      ∧ (providedStr nsal = false → (applyEntityUpdate nn nt nsal now e).salience = e.salience)) := by
  refine ⟨?_, ?_, ?_⟩
  · intro h
    simp [update_entity, h]
  · intro hne h1 h2 h3
    obtain ⟨e, he⟩ := Option.ne_none_iff_exists'.1 hne
    simp [update_entity, he, h1, h2, h3]
  · intro e db2 r he hr hs
    have hmem : e ∈ db.entities := List.mem_of_find?_eq_some he
    simp only [update_entity, he] at hr
    split at hr
    · -- "No updates specified" branch: r.success would be false
      rw [Except.ok.injEq, Prod.mk.injEq] at hr
      rw [← hr.2] at hs
      exact absurd hs (by decide)
    · split at hr
      · -- UNIQUE violation branch: .error ≠ .ok
        exact absurd hr (by simp)
      · rw [Except.ok.injEq, Prod.mk.injEq] at hr
        obtain ⟨hdb2, _⟩ := hr
        subst hdb2
        refine ⟨rfl, rfl, by simp, ?_, ?_, rfl, rfl, rfl, ?_, ?_, ?_⟩
        · intro x hx hne2
          exact List.mem_map.2 ⟨x, hx, by simp [hne2]⟩
        · exact List.mem_map.2 ⟨e, hmem, by simp⟩
        · intro h; simp [applyEntityUpdate, h]
        · intro h; simp [applyEntityUpdate, h]
        · intro h; simp [applyEntityUpdate, h]

theorem update_entity_contract_witness :
    (update_entity emptyMemoryDb "Ghost" "default" (some "X") none none 7
        = .ok (emptyMemoryDb, ⟨false, "Entity \x27Ghost\x27 not found"⟩))
  ∧ (update_entity cexSearchDb "apple" "default" none (some "") none 7
        = .ok (cexSearchDb, ⟨false, "No updates specified"⟩))
  ∧ applyEntityUpdate none none (some "foundational") 7
        (⟨1, "apple", "t", "default", "active", 0, 20⟩ : EntityRow)
      ∈ ({ cexSearchDb with entities :=
            [⟨1, "apple", "t", "default", "foundational", 0, 7⟩,
             ⟨2, "ananas", "t", "default", "active", 0, 10⟩] } : MemoryDb).entities :=
  ⟨(update_entity_contract emptyMemoryDb "Ghost" "default" (some "X") none none 7).1 (by rfl),
   (update_entity_contract cexSearchDb "apple" "default" none (some "") none 7).2.1
     (by simp [lookupEntity, cexSearchDb]) (by rfl) (by rfl) (by rfl),
   ((update_entity_contract cexSearchDb "apple" "default" none none (some "foundational") 7).2.2
      ⟨1, "apple", "t", "default", "active", 0, 20⟩
      { cexSearchDb with entities :=
          [⟨1, "apple", "t", "default", "foundational", 0, 7⟩,
           ⟨2, "ananas", "t", "default", "active", 0, 10⟩] }
      ⟨true, "Entity \x27apple\x27 updated successfully"⟩
      (by rfl) (by rfl) (by rfl)).2.2.2.2.1⟩

/-- C10: `void_append_snippet(text, tags, session_id, thread_id, importance)`
is exactly `void_write_entry(title="Snippet", summary=text, decisions="",
open_loops="", artifacts={"snippet": text}, tags=tags if tags is non-empty
else ["snippet"], importance, session_id, thread_id)`: same stored entry and
same returned result, for every input and store state. -/
theorem void_append_snippet_refines (db : VoidDb) (text : String)
    (tags : Option (List String)) (sid tid : Option String)
    (importance : Int) (now : Nat) :
    void_append_snippet db text tags sid tid importance now
      = voidAppendSnippetSpec db text tags sid tid importance now := by
  cases tags with
  | none => rfl
  | some ts =>
      cases ts with
      | nil => rfl
      | cons a l => rfl

theorem void_write_preserves_ftsInv (db : VoidDb) (hinv : ftsInv db)
    (t s : String) (d o : Option String) (a : Option (List (String × String)))
    (tg : Option (List String)) (i : Int) (sid tid : Option String) (now : Nat) :
    ftsInv (void_write_entry db t s d o a tg i sid tid now).1 := by
  obtain ⟨hbe, hbf, hcount, hback⟩ := hinv
  have hE : (void_write_entry db t s d o a tg i sid tid now).1.entries
      = db.entries ++ [⟨db.nextId, now, sid, tid, t, s, d, o,
          dumpsObj (a.getD []), dumpsArr (tg.getD []), i⟩] := rfl
  have hF : (void_write_entry db t s d o a tg i sid tid now).1.fts
      = db.fts ++ [⟨db.nextId, t, s, d.getD "", o.getD "",
          dumpsObj (a.getD []), dumpsArr (tg.getD [])⟩] := rfl
  have hN : (void_write_entry db t s d o a tg i sid tid now).1.nextId
      = db.nextId + 1 := rfl
  have hOldNone : db.fts.filter (fun f => f.rowid == db.nextId) = [] :=
    List.filter_eq_nil_iff.mpr (fun f hf => by
      have := hbf f hf
      simp only [beq_iff_eq]
      omega)
  refine ⟨?_, ?_, ?_, ?_⟩
  · intro e he
    rw [hE] at he
    rw [hN]
    rcases List.mem_append.1 he with h | h
    · exact Nat.lt_succ_of_lt (hbe e h)
    · rw [List.mem_singleton.1 h]
      exact Nat.lt_succ_self _
  · intro f hf
    rw [hF] at hf
    rw [hN]
    rcases List.mem_append.1 hf with h | h
    · exact Nat.lt_succ_of_lt (hbf f h)
    · rw [List.mem_singleton.1 h]
      exact Nat.lt_succ_self _
  · intro e he
    rw [hE] at he
    rw [hF, List.filter_append, List.length_append]
    rcases List.mem_append.1 he with h | h
    · have h1 := hcount e h
      have hne : db.nextId ≠ e.id := by
        have := hbe e h
        omega
      simp [h1, hne]
    · rw [List.mem_singleton.1 h]
      simp [hOldNone]
  · intro f hf
    rw [hF] at hf
    rw [hE]
    rcases List.mem_append.1 hf with h | h
    · obtain ⟨e, he, hid⟩ := hback f h
      exact ⟨e, List.mem_append_left _ he, hid⟩
    · rw [List.mem_singleton.1 h]
      exact ⟨_, List.mem_append_right _ (List.mem_singleton.2 rfl), rfl⟩

theorem applyOp_preserves_ftsInv (db : VoidDb) (hinv : ftsInv db)
    (op : JournalOp) : ftsInv (applyOp db op) := by
  cases op with
  | write t s d o a tg i sid tid now =>
      exact void_write_preserves_ftsInv db hinv t s d o a tg i sid tid now
  | snippet tx tg sid tid i now =>
      exact void_write_preserves_ftsInv db hinv "Snippet" tx (some "") (some "")
        (some [("snippet", tx)])
        (some (match tg with
               | some ts => if ts.isEmpty then ["snippet"] else ts
               | none => ["snippet"]))
        i sid tid now

/-- C5: for every sequence of journal operations starting from a fresh Void
store, the FTS projection contains exactly one index row per existing entry
id and no index row for a non-existent entry — the `entries_ai` trigger
keeps entries and index in lockstep after every committed insert (the core
exposes no entry update or delete). -/
theorem journal_fts_lockstep (ops : List JournalOp) :
    ftsConsistent (applyOps initVoidDb ops) := by
  have h : ∀ db, ftsInv db → ftsInv (applyOps db ops) := by
    induction ops with
    | nil => exact fun db h => h
    | cons op rest ih =>
        intro db h
        exact ih _ (applyOp_preserves_ftsInv db h op)
  have hinit : ftsInv initVoidDb := by
    refine ⟨?_, ?_, ?_, ?_⟩ <;> simp [initVoidDb]
  exact (h initVoidDb hinit).2.2

theorem parseStrBody_esc (cs rest : List Char) :
    parseStrBody (escChars cs ++ '"' :: rest) = some (cs, rest) := by
  induction cs with
  | nil =>
      rw [show escChars [] ++ '"' :: rest = '"' :: rest from rfl]
      rw [parseStrBody.eq_def]
      simp
  | cons c cs ih =>
      by_cases h1 : c = '"'
      · subst h1
        rw [show escChars ('"' :: cs) ++ '"' :: rest
            = '\\' :: '"' :: (escChars cs ++ '"' :: rest) from by simp [escChars, escChar]]
        rw [parseStrBody.eq_def]
        simp [ih]
      · by_cases h2 : c = '\\'
        · subst h2
          rw [show escChars ('\\' :: cs) ++ '"' :: rest
              = '\\' :: '\\' :: (escChars cs ++ '"' :: rest) from by simp [escChars, escChar]]
          rw [parseStrBody.eq_def]
          simp [ih]
        · rw [show escChars (c :: cs) ++ '"' :: rest
              = c :: (escChars cs ++ '"' :: rest) from by simp [escChars, escChar, h1, h2]]
          rw [parseStrBody.eq_def]
          simp [ih, h1, h2]

theorem parseStr_jstr (s : String) (rest : List Char) :
    parseStr (jstrChars s ++ rest) = some (s, rest) := by
  have h := parseStrBody_esc s.data rest
  rw [show jstrChars s ++ rest = '"' :: (escChars s.data ++ '"' :: rest) from by
    simp [jstrChars]]
  rw [parseStr.eq_def]
  simp [h]

theorem parsePair_enc (k v : String) (rest : List Char) :
    parsePair (jstrChars k ++ ':' :: ' ' :: (jstrChars v ++ rest)) = some ((k, v), rest) := by
  simp [parsePair, parseStr_jstr]

theorem jstrChars_length (s : String) :
    (jstrChars s).length = (escChars s.data).length + 2 := by
  simp [jstrChars]

theorem encPairsChars_length_ge (ps : List (String × String)) :
    ps.length ≤ (encPairsChars ps).length := by
  induction ps with
  | nil => simp [encPairsChars]
  | cons p ps ih =>
      cases ps with
      | nil =>
          simp [encPairsChars, jstrChars_length]
          omega
      | cons q qs =>
          simp only [encPairsChars, List.length_append, List.length_cons,
            jstrChars_length] at ih ⊢
          omega

theorem parsePairsAux_enc (ps : List (String × String)) (hne : ps ≠ []) :
    ∀ fuel, ps.length ≤ fuel →
      parsePairsAux fuel (encPairsChars ps ++ ['\x7d']) = some ps := by
  induction ps with
  | nil => exact absurd rfl hne
  | cons p ps ih =>
      intro fuel hfuel
      cases fuel with
      | zero => simp at hfuel
      | succ f =>
          cases ps with
          | nil => simp [encPairsChars, parsePairsAux, List.append_assoc,
              List.cons_append, parsePair_enc]
          | cons q qs =>
              have hrec := ih (by simp) f (by simpa using hfuel)
              simp [encPairsChars, parsePairsAux, List.append_assoc, List.cons_append,
                parsePair_enc, hrec]

theorem loadsObj_dumpsObj (ps : List (String × String)) :
    loadsObj (dumpsObj ps) = some ps := by
  cases ps with
  | nil => rfl
  | cons p ps =>
      have hlen := encPairsChars_length_ge (p :: ps)
      have hbody : (encPairsChars (p :: ps) ++ ['\x7d']) ≠ ['\x7d'] := by
        intro hcontra
        have hc := congrArg List.length hcontra
        simp only [List.length_append, List.length_cons, List.length_nil] at hc
        simp only [List.length_cons] at hlen
        omega
      have hfuel : (p :: ps).length ≤ (dumpsObj (p :: ps)).length := by
        simp only [dumpsObj, String.length, List.length_cons, List.length_append,
          List.length_nil]
        simp only [List.length_cons] at hlen
        omega
      simp only [loadsObj, dumpsObj, if_neg hbody]
      exact parsePairsAux_enc (p :: ps) (by simp) _ hfuel

theorem encArrChars_length_ge (ts : List String) :
    ts.length ≤ (encArrChars ts).length := by
  induction ts with
  | nil => simp [encArrChars]
  | cons t ts ih =>
      cases ts with
      | nil =>
          simp [encArrChars, jstrChars_length]
      | cons q qs =>
          simp only [encArrChars, List.length_append, List.length_cons,
            jstrChars_length] at ih ⊢
          omega

theorem parseArrAux_enc (ts : List String) (hne : ts ≠ []) :
    ∀ fuel, ts.length ≤ fuel →
      parseArrAux fuel (encArrChars ts ++ [']']) = some ts := by
  induction ts with
  | nil => exact absurd rfl hne
  | cons t ts ih =>
      intro fuel hfuel
      cases fuel with
      | zero => simp at hfuel
      | succ f =>
          cases ts with
          | nil => simp [encArrChars, parseArrAux, List.append_assoc,
              List.cons_append, parseStr_jstr]
          | cons q qs =>
              have hrec := ih (by simp) f (by simpa using hfuel)
              simp [encArrChars, parseArrAux, List.append_assoc, List.cons_append,
                parseStr_jstr, hrec]

theorem loadsArr_dumpsArr (ts : List String) :
    loadsArr (dumpsArr ts) = some ts := by
  cases ts with
  | nil => rfl
  | cons t ts =>
      have hlen := encArrChars_length_ge (t :: ts)
      have hbody : (encArrChars (t :: ts) ++ [']']) ≠ [']'] := by
        intro hcontra
        have hc := congrArg List.length hcontra
        simp only [List.length_append, List.length_cons, List.length_nil] at hc
        simp only [List.length_cons] at hlen
        omega
      have hfuel : (t :: ts).length ≤ (dumpsArr (t :: ts)).length := by
        simp only [dumpsArr, String.length, List.length_cons, List.length_append,
          List.length_nil]
        simp only [List.length_cons] at hlen
        omega
      simp only [loadsArr, dumpsArr, if_neg hbody]
      exact parseArrAux_enc (t :: ts) (by simp) _ hfuel

theorem dumpsObj_ne_empty (ps : List (String × String)) : dumpsObj ps ≠ "" := by
  intro h
  have hc := congrArg String.length h
  simp only [dumpsObj, String.length, List.length_cons, List.length_append,
    List.length_nil] at hc
  omega

theorem dumpsArr_ne_empty (ts : List String) : dumpsArr ts ≠ "" := by
  intro h
  have hc := congrArg String.length h
  simp only [dumpsArr, String.length, List.length_cons, List.length_append,
    List.length_nil] at hc
  omega

theorem find?_append_of_none (p : α → Bool) (l1 l2 : List α)
    (h : l1.find? p = none) : (l1 ++ l2).find? p = l2.find? p := by
  induction l1 with
  | nil => simp
  | cons a t ih =>
      by_cases hpa : p a
      · simp [List.find?_cons_of_pos, hpa] at h
      · simp only [List.find?_cons_of_neg _ hpa] at h
        simp only [List.cons_append, List.find?_cons_of_neg _ hpa]
        exact ih h

/-- C9: round-trip — writing an entry with artifacts `A` and tags `T` (the
`None` defaults serializing as `{}` and `[]`) and fetching it back by the
returned id yields exactly the written fields with artifacts and tags
deserialized from their stored canonical JSON text; fetching an id that was
never written yields the not-found result. -/
theorem void_entry_roundtrip (db : VoidDb) (title summary : String)
    (decisions ol : Option String) (artifacts : Option (List (String × String)))
    (tags : Option (List String)) (importance : Int)
    (sid tid : Option String) (now : Nat) (i : Nat)
    (hwf : ∀ e ∈ db.entries, e.id < db.nextId) :
    void_get_entry (void_write_entry db title summary decisions ol artifacts tags
          importance sid tid now).1
        (void_write_entry db title summary decisions ol artifacts tags
          importance sid tid now).2.id
      = .ok (.found ⟨db.nextId, now, sid, tid, title, summary, decisions, ol,
          artifacts.getD [], tags.getD [], importance⟩)
  ∧ ((∀ e ∈ db.entries, e.id ≠ i) → void_get_entry db i = .ok .notFound) := by
  constructor
  · have hfind0 : db.entries.find? (fun e => e.id == db.nextId) = none :=
      List.find?_eq_none.mpr (fun e he => by
        have := hwf e he
        simp only [beq_iff_eq]
        omega)
    have hE : (void_write_entry db title summary decisions ol artifacts tags
          importance sid tid now).1.entries
        = db.entries ++ [⟨db.nextId, now, sid, tid, title, summary, decisions, ol,
            dumpsObj (artifacts.getD []), dumpsArr (tags.getD []), importance⟩] := rfl
    have hid : (void_write_entry db title summary decisions ol artifacts tags
          importance sid tid now).2.id = db.nextId := rfl
    rw [void_get_entry.eq_def, hid, hE, find?_append_of_none _ _ _ hfind0]
    simp [if_neg (dumpsObj_ne_empty _), if_neg (dumpsArr_ne_empty _),
      loadsObj_dumpsObj, loadsArr_dumpsArr]
  · intro h
    have hfind : db.entries.find? (fun e => e.id == i) = none :=
      List.find?_eq_none.mpr (fun e he => by simpa using h e he)
    rw [void_get_entry.eq_def, hfind]

theorem void_entry_roundtrip_witness :
    (void_get_entry (void_write_entry initVoidDb "T" "S" (some "d") none
          (some [("k", "v\"w")]) (some ["x"]) 2 none none 7).1
        (void_write_entry initVoidDb "T" "S" (some "d") none
          (some [("k", "v\"w")]) (some ["x"]) 2 none none 7).2.id
      = .ok (.found ⟨1, 7, none, none, "T", "S", some "d", none, [("k", "v\"w")], ["x"], 2⟩))
  ∧ void_get_entry initVoidDb 5 = .ok .notFound :=
  have h := void_entry_roundtrip initVoidDb "T" "S" (some "d") none (some [("k", "v\"w")])
    (some ["x"]) 2 none none 7 5 (by simp [initVoidDb])
  ⟨h.1, h.2 (by simp [initVoidDb])⟩

theorem pySlice_length_of_nonneg (s : String) (k : Int) (hk : 0 ≤ k) :
    (pySlice s k).length = min k.toNat s.length := by
  simp only [pySlice]
  rw [if_neg (by omega)]
  show (s.data.take (min k (s.length : Int)).toNat).length = min k.toNat s.length
  rw [List.length_take]
  have hd : s.data.length = s.length := rfl
  rw [hd]
  omega

theorem lengthClamp_bound (N : Int) (s : String) (hN : 50 ≤ N) :
    ((lengthClamp N s).length : Int) ≤ N := by
  unfold lengthClamp
  split
  · rename_i h
    rw [String.length_append]
    have h38 : ("\n...[truncated]\n[END MEMORY CONTEXT]\n\n" : String).length = 38 := rfl
    have hslice : (pySlice s (N - 50)).length = min (N - 50).toNat s.length :=
      pySlice_length_of_nonneg s (N - 50) (by omega)
    rw [h38, hslice]
    push_cast
    omega
  · rename_i h
    omega

/-- C3 (amended): for every `max_length = N ≥ 50`, `get_context_block`
returns a string of length at most `N`: when the assembled text exceeds `N`
characters it is cut to exactly `N - 50` characters and the 38-character
truncation marker plus closing banner are appended, giving length `N - 12`.
For `N < 50` the bound fails, because Python's `result[:N - 50]` slices with
a negative stop (see the counterexample). -/
theorem get_context_block_length_le (N : Int) (hours : Nat)
    (databases : Option (List String)) (db : MemoryDb) (now : Nat) (hN : 50 ≤ N) :
    ((get_context_block N hours databases db now).length : Int) ≤ N := by
  unfold get_context_block
  exact lengthClamp_bound N _ hN

theorem get_context_block_length_le_witness :
    ((50 : Int) ≤ 100) ∧ ((get_context_block 100 48 none emptyMemoryDb 5).length : Int) ≤ 100 :=
  ⟨by decide, get_context_block_length_le 100 48 none emptyMemoryDb 5 (by decide)⟩

/-- C3 counterexample: with `max_length = 10` on an empty store the
assembled block has 65 characters, `result[:10 - 50]` keeps the first 25
characters (a negative Python slice, not an empty cut), and the returned
string has 63 characters — more than `max_length` even after allowing the
38-character marker overhead (10 + 38 = 48 < 63). -/
theorem get_context_block_length_cex :
    (get_context_block 10 48 none emptyMemoryDb 5).length = 63 ∧ 10 + 38 < 63 :=
  ⟨by decide, by decide⟩

theorem mem_insertDescBy (key : α → Nat) (x z : α) (l : List α) :
    z ∈ insertDescBy key x l ↔ z = x ∨ z ∈ l := by
  induction l with
  | nil => simp [insertDescBy]
  | cons y ys ih =>
      simp only [insertDescBy]
      split
      · simp
      · simp only [List.mem_cons, ih]
        tauto

theorem pairwise_insertDescBy (key : α → Nat) (x : α) (l : List α)
    (h : l.Pairwise (fun a b => key b ≤ key a)) :
    (insertDescBy key x l).Pairwise (fun a b => key b ≤ key a) := by
  induction l with
  | nil => simp [insertDescBy]
  | cons y ys ih =>
      rw [List.pairwise_cons] at h
      obtain ⟨hy, hys⟩ := h
      simp only [insertDescBy]
      split
      · rename_i hlt
        rw [List.pairwise_cons]
        refine ⟨?_, List.pairwise_cons.2 ⟨hy, hys⟩⟩
        intro z hz
        rcases List.mem_cons.1 hz with hz | hz
        · subst hz; omega
        · exact le_trans (hy z hz) (le_of_lt hlt)
      · rename_i hnlt
        rw [List.pairwise_cons]
        constructor
        · intro z hz
          rcases (mem_insertDescBy key x z ys).1 hz with hz | hz
          · subst hz; omega
          · exact hy z hz
        · exact ih hys

theorem pairwise_sortDescBy (key : α → Nat) (l : List α) :
    (sortDescBy key l).Pairwise (fun a b => key b ≤ key a) := by
  induction l with
  | nil => simp [sortDescBy]
  | cons x xs ih => exact pairwise_insertDescBy key x _ ih

theorem map_fst_update (l : List (EntityRow × ResultEntity))
    (g : ResultEntity → ResultEntity) (i : Nat) :
    (l.map (fun p => if p.1.id == i then (p.1, g p.2) else p)).map (fun p => p.1)
      = l.map (fun p => p.1) := by
  induction l with
  | nil => rfl
  | cons a t ih =>
      simp only [List.map_cons]
      rw [ih]
      congr 1
      split <;> rfl

theorem groupAttach_firsts (acc : List (EntityRow × ResultEntity))
    (row : EntityRow × Option (String × Nat)) :
    (groupAttach acc row).map (fun p => p.1) = acc.map (fun p => p.1) := by
  rcases hr2 : row.2 with _ | co
  · simp only [groupAttach, hr2]
  · simp only [groupAttach, hr2]
    by_cases hco : co.1 ≠ ""
    · rw [if_pos hco]
      exact map_fst_update acc
        (fun x => ⟨x.name, x.entity_type, x.database, x.salience, x.observations ++ [co]⟩)
        row.1.id
    · rw [if_neg hco]

theorem pairwise_fst_of_map_fst_eq (l l2 : List (EntityRow × ResultEntity))
    (h : l2.map (fun p => p.1) = l.map (fun p => p.1))
    (S : EntityRow → EntityRow → Prop)
    (hp : l.Pairwise (fun a b => S a.1 b.1)) :
    l2.Pairwise (fun a b => S a.1 b.1) := by
  have h1 : (l.map (fun p => p.1)).Pairwise S := (List.pairwise_map).2 hp
  rw [← h] at h1
  exact (List.pairwise_map).1 h1

theorem groupInsert_eq_or (acc : List (EntityRow × ResultEntity))
    (row : EntityRow × Option (String × Nat)) :
    groupInsert acc row = acc
      ∨ ((∀ p ∈ acc, p.1.id ≠ row.1.id)
        ∧ groupInsert acc row
            = acc ++ [(row.1, ⟨row.1.name, row.1.entity_type, row.1.database,
                row.1.salience, []⟩)]) := by
  unfold groupInsert
  split
  · exact Or.inl rfl
  · rename_i hany
    refine Or.inr ⟨?_, rfl⟩
    intro p hp h
    exact hany (List.any_eq_true.2 ⟨p, hp, by simp [h]⟩)

theorem groupAttach_length (acc : List (EntityRow × ResultEntity))
    (row : EntityRow × Option (String × Nat)) :
    (groupAttach acc row).length = acc.length := by
  have h := congrArg List.length (groupAttach_firsts acc row)
  simpa using h

theorem groupStep_length (acc : List (EntityRow × ResultEntity))
    (row : EntityRow × Option (String × Nat)) :
    (groupStep acc row).length ≤ acc.length + 1 := by
  unfold groupStep
  rw [groupAttach_length]
  rcases groupInsert_eq_or acc row with h | ⟨_, h⟩ <;> rw [h] <;> simp

theorem foldl_groupStep_length (rows : List (EntityRow × Option (String × Nat))) :
    ∀ acc : List (EntityRow × ResultEntity),
      (rows.foldl groupStep acc).length ≤ acc.length + rows.length := by
  induction rows with
  | nil => intro acc; simp
  | cons r rest ih =>
      intro acc
      rw [List.foldl_cons]
      calc (rest.foldl groupStep (groupStep acc r)).length
          ≤ (groupStep acc r).length + rest.length := ih _
        _ ≤ acc.length + 1 + rest.length :=
            Nat.add_le_add_right (groupStep_length acc r) _
        _ = acc.length + (r :: rest).length := by simp; omega

theorem foldl_groupStep_invariant :
    ∀ (rows : List (EntityRow × Option (String × Nat)))
      (acc : List (EntityRow × ResultEntity)),
      rows.Pairwise (fun r r2 => r2.1.updated_at ≤ r.1.updated_at) →
      acc.Pairwise (fun a b => b.1.updated_at ≤ a.1.updated_at) →
      acc.Pairwise (fun a b => a.1.id ≠ b.1.id) →
      (∀ a ∈ acc, ∀ r ∈ rows, r.1.updated_at ≤ a.1.updated_at) →
      (rows.foldl groupStep acc).Pairwise (fun a b => b.1.updated_at ≤ a.1.updated_at)
      ∧ (rows.foldl groupStep acc).Pairwise (fun a b => a.1.id ≠ b.1.id) := by
  intro rows
  induction rows with
  | nil => intro acc _ h1 h2 _; exact ⟨h1, h2⟩
  | cons r rest ih =>
      intro acc hrows h1 h2 hcross
      rw [List.pairwise_cons] at hrows
      obtain ⟨hhead, htail⟩ := hrows
      rw [List.foldl_cons]
      have hfst : (groupStep acc r).map (fun p => p.1)
          = (groupInsert acc r).map (fun p => p.1) := groupAttach_firsts _ r
      have hins1 : (groupInsert acc r).Pairwise
          (fun a b => b.1.updated_at ≤ a.1.updated_at) := by
        rcases groupInsert_eq_or acc r with h | ⟨hnone, h⟩
        · rw [h]; exact h1
        · rw [h, List.pairwise_append]
          refine ⟨h1, by simp, ?_⟩
          intro a ha b hb
          rw [List.mem_singleton] at hb
          subst hb
          exact hcross a ha r (List.mem_cons_self r rest)
      have hins2 : (groupInsert acc r).Pairwise (fun a b => a.1.id ≠ b.1.id) := by
        rcases groupInsert_eq_or acc r with h | ⟨hnone, h⟩
        · rw [h]; exact h2
        · rw [h, List.pairwise_append]
          refine ⟨h2, by simp, ?_⟩
          intro a ha b hb
          rw [List.mem_singleton] at hb
          subst hb
          exact hnone a ha
      have hstep1 : (groupStep acc r).Pairwise
          (fun a b => b.1.updated_at ≤ a.1.updated_at) :=
        pairwise_fst_of_map_fst_eq _ _ hfst
          (fun x y => y.updated_at ≤ x.updated_at) hins1
      have hstep2 : (groupStep acc r).Pairwise (fun a b => a.1.id ≠ b.1.id) :=
        pairwise_fst_of_map_fst_eq _ _ hfst (fun x y => x.id ≠ y.id) hins2
      have hcross2 : ∀ a ∈ groupStep acc r, ∀ r2 ∈ rest,
          r2.1.updated_at ≤ a.1.updated_at := by
        intro a ha r2 hr2
        have hafst : a.1 ∈ (groupStep acc r).map (fun p => p.1) :=
          List.mem_map_of_mem _ ha
        rw [hfst] at hafst
        rcases groupInsert_eq_or acc r with h | ⟨hnone, h⟩
        · rw [h] at hafst
          obtain ⟨p, hp, hpe⟩ := List.mem_map.1 hafst
          rw [← hpe]
          exact hcross p hp r2 (List.mem_cons_of_mem r hr2)
        · rw [h, List.map_append] at hafst
          rcases List.mem_append.1 hafst with hx | hx
          · obtain ⟨p, hp, hpe⟩ := List.mem_map.1 hx
            rw [← hpe]
            exact hcross p hp r2 (List.mem_cons_of_mem r hr2)
          · rw [List.map_singleton, List.mem_singleton] at hx
            rw [hx]
            exact hhead r2 hr2
      exact ih (groupStep acc r) htail hstep1 hstep2 hcross2

/-- C1 (amended): `search_memories` groups results so each entity appears at
most once (group keys are pairwise-distinct entity ids) with its matching
observations attached, in entity `updated_at` descending order, and returns
at most `limit` entities.  However, the SQL `LIMIT` caps fetched *join rows*
at `limit`, not distinct entities, so when at least `limit` distinct
entities match the query the result may contain fewer than `limit` entities
(an entity with several matching observation rows consumes several of the
fetched rows) — the "exactly `limit` entities" part of the original claim
fails (see the counterexample). -/
theorem search_memories_grouped_capped (db : MemoryDb) (q : String)
    (databases : Option (List String)) (limit : Nat) :
    (search_memories db q databases limit).count ≤ limit
  ∧ (searchGroups db q databases limit).Pairwise (fun a b => a.1.id ≠ b.1.id)
  ∧ (searchGroups db q databases limit).Pairwise
      (fun a b => b.1.updated_at ≤ a.1.updated_at)
  ∧ (search_memories db q databases limit).results
      = (searchGroups db q databases limit).map (fun p => p.2) := by
  have hrowsPW : (searchRows db q databases limit).Pairwise
      (fun r r2 => r2.1.updated_at ≤ r.1.updated_at) := by
    unfold searchRows
    exact (pairwise_sortDescBy
        (fun r : EntityRow × Option (String × Nat) => r.1.updated_at) _).sublist
      (List.take_sublist _ _)
  have hinv := foldl_groupStep_invariant (searchRows db q databases limit) []
    hrowsPW (by simp) (by simp) (by simp)
  refine ⟨?_, hinv.2, hinv.1, rfl⟩
  have hlen := foldl_groupStep_length (searchRows db q databases limit) []
  have hrows_le : (searchRows db q databases limit).length ≤ limit := by
    unfold searchRows
    rw [List.length_take]
    exact min_le_left _ _
  calc (search_memories db q databases limit).count
      = (searchGroups db q databases limit).length := rfl
    _ ≤ [].length + (searchRows db q databases limit).length := hlen
    _ ≤ limit := by simpa using hrows_le

/-- C1 counterexample: in `cexSearchDb` exactly two distinct entities match
the query `"q"` (both have matching observations), yet `search_memories`
with `limit = 2` returns only one entity: the `LIMIT 2` is consumed by the
first entity's two matching observation rows, so the cap applies to fetched
rows, not to distinct entities. -/
theorem search_memories_limit_cex :
    matchingEntityCount cexSearchDb "q" none = 2
  ∧ (search_memories cexSearchDb "q" none 2).count = 1 := ⟨by decide, by decide⟩

theorem journal_fts_lockstep_witness :
    ((applyOps initVoidDb
        [JournalOp.write "T" "S" none none none none 1 none none 5,
         JournalOp.snippet "hi" none none none 1 6]).fts.filter
      (fun f => f.rowid == 1)).length = 1 :=
  (journal_fts_lockstep
      [JournalOp.write "T" "S" none none none none 1 none none 5,
       JournalOp.snippet "hi" none none none 1 6]).1
    ⟨1, 5, none, none, "T", "S", none, none, dumpsObj [], dumpsArr [], 1⟩
    (by decide)
